import Mathlib

/-!
Verification of the BlockNet relayer node (Blockchain-Based-Messaging-Application).

The development is a shallow embedding of the Python sources:
`crypto_utils.py`, `storage.py`, `blockchain.py`, `main.py` (FastAPI handlers).
External library calls are abstracted as function parameters:
  * `recover : String → String → Option String` stands for
    `eth_account.Account.recover_message` over the personal-sign envelope
    (message text, signature hex → recovered address, `none` on exception);
  * `sha : String → String` stands for `hashlib.sha256(..).hexdigest()`
    composed with UTF-8 encoding.
The SQLite tables are modelled as explicit lists, file-system slots as
association lists, and `json.dumps` is embedded directly (sorted keys and
both separator styles used in the sources).  Python string primitives
(`str.lower`, `<` on strings, `startswith`, `in`) are embedded as
character-level functions so that every definition evaluates inside the
kernel.
-/

/-! ## Python string primitives -/

/-- `str.lower()` on one character (the addresses and hosts handled by the
node are ASCII, where Python's `lower` is exactly this map). -/
def lowerChar (c : Char) : Char :=
  if 65 ≤ c.toNat ∧ c.toNat ≤ 90 then Char.ofNat (c.toNat + 32) else c

/-- `str.lower()`. -/
def pyLower (s : String) : String := String.mk (s.toList.map lowerChar)

/-- Code-point lexicographic `<` on character lists (Python string `<`). -/
def listCharLt : List Char → List Char → Bool
  | [], [] => false
  | [], _ :: _ => true
  | _ :: _, [] => false
  | a :: as, b :: bs =>
      if a.toNat < b.toNat then true
      else if b.toNat < a.toNat then false
      else listCharLt as bs

/-- Python string `<` (code-point lexicographic). -/
def strLt (a b : String) : Bool := listCharLt a.toList b.toList

/-- Python string `<=`. -/
def strLe (a b : String) : Bool := !strLt b a

/-- `a.startswith(b)` on character lists. -/
def listStarts : List Char → List Char → Bool
  | _, [] => true
  | [], _ :: _ => false
  | a :: as, b :: bs => a == b && listStarts as bs

/-- Python `a.startswith(b)`. -/
def strStarts (a b : String) : Bool := listStarts a.toList b.toList

/-- Python `c in s` for a single character. -/
def strHasChar (s : String) (c : Char) : Bool := s.toList.any (· == c)

/-- Python `s.rstrip("/")`. -/
def rstripSlash (s : String) : String :=
  String.mk ((s.toList.reverse.dropWhile (· = '/')).reverse)

/-! ## JSON values and `json.dumps` -/

/-- A JSON value as produced by `json.load` / consumed by `json.dump`.
Numbers are restricted to integers: the relayer's payloads and metadata use
only integers (timestamps, ids). -/
inductive Json where
  | null : Json
  | bool : Bool → Json
  | num : Int → Json
  | str : String → Json
  | arr : List Json → Json
  | obj : List (String × Json) → Json
deriving Repr

/-- Lowercase hex digit, as Python's `\uXXXX` escapes use. -/
def hexDigit (n : Nat) : Char :=
  if n < 10 then Char.ofNat (48 + n) else Char.ofNat (87 + n % 16)

/-- Four lowercase hex digits of `n % 65536`. -/
def hex4 (n : Nat) : String :=
  String.mk [hexDigit ((n / 4096) % 16), hexDigit ((n / 256) % 16),
             hexDigit ((n / 16) % 16), hexDigit (n % 16)]

/-- Escape one character the way `json.dumps` with `ensure_ascii=True` does. -/
def escChar (c : Char) : String :=
  if c = '"' then "\\\""
  else if c = '\\' then "\\\\"
  else if c = '\n' then "\\n"
  else if c = '\r' then "\\r"
  else if c = '\t' then "\\t"
  else if c = Char.ofNat 8 then "\\b"
  else if c = Char.ofNat 12 then "\\f"
  else if c.toNat < 32 then "\\u" ++ hex4 c.toNat
  else if c.toNat < 127 then String.mk [c]
  else if c.toNat < 65536 then "\\u" ++ hex4 c.toNat
  else
    let v := c.toNat - 65536
    "\\u" ++ hex4 (55296 + v / 1024) ++ "\\u" ++ hex4 (56320 + v % 1024)

/-- A JSON string literal as `json.dumps` emits it. -/
def jsonQuote (s : String) : String :=
  "\"" ++ String.join (s.toList.map escChar) ++ "\""

/-- Insert a key/value pair into a key-sorted association list
(Python's `sorted` on keys; ties keep input order, i.e. stable). -/
def kvInsert (x : String × Json) : List (String × Json) → List (String × Json)
  | [] => [x]
  | y :: ys => if strLt x.1 y.1 then x :: y :: ys else y :: kvInsert x ys

/-- Sort an association list by key (insertion sort, stable like Python's). -/
def kvSortIns : List (String × Json) → List (String × Json)
  | [] => []
  | x :: xs => kvInsert x (kvSortIns xs)

mutual
/-- Recursively sort every object's keys, as `json.dumps(_, sort_keys=True)`
does at every nesting level. -/
def Json.sortKeys : Json → Json
  | .null => .null
  | .bool b => .bool b
  | .num n => .num n
  | .str s => .str s
  | .arr xs => .arr (Json.sortKeysList xs)
  | .obj kvs => .obj (kvSortIns (Json.sortKeysKvs kvs))

def Json.sortKeysList : List Json → List Json
  | [] => []
  | x :: xs => Json.sortKeys x :: Json.sortKeysList xs

def Json.sortKeysKvs : List (String × Json) → List (String × Json)
  | [] => []
  | kv :: xs => (kv.1, Json.sortKeys kv.2) :: Json.sortKeysKvs xs
end

mutual
/-- Serialize a JSON value with the given item and key separators
(keys are emitted in stored order; see `Json.dumps` for the sorted entry
point). `isep` separates array items / object members, `ksep` follows keys. -/
def Json.dumpRaw (isep ksep : String) : Json → String
  | .null => "null"
  | .bool true => "true"
  | .bool false => "false"
  | .num n => toString n
  | .str s => jsonQuote s
  | .arr xs => "[" ++ Json.dumpRawList isep ksep xs ++ "]"
  | .obj kvs => "\x7b" ++ Json.dumpRawObj isep ksep kvs ++ "\x7d"

def Json.dumpRawList (isep ksep : String) : List Json → String
  | [] => ""
  | [x] => Json.dumpRaw isep ksep x
  | x :: y :: xs => Json.dumpRaw isep ksep x ++ isep ++ Json.dumpRawList isep ksep (y :: xs)

def Json.dumpRawObj (isep ksep : String) : List (String × Json) → String
  | [] => ""
  | [kv] => jsonQuote kv.1 ++ ksep ++ Json.dumpRaw isep ksep kv.2
  | kv :: y :: xs =>
      jsonQuote kv.1 ++ ksep ++ Json.dumpRaw isep ksep kv.2 ++ isep ++
        Json.dumpRawObj isep ksep (y :: xs)
end

/-- `json.dumps(v, sort_keys=True)` with the given separators.
Default Python separators are `", "`/`": "`; the canonical (compact) form
used for CIDs passes `separators=(',', ':')`. -/
def Json.dumps (isep ksep : String) (v : Json) : String :=
  Json.dumpRaw isep ksep v.sortKeys

/-! ## Crypto utilities (`crypto_utils.py`) -/

/-- `verify_signature(sender, message, sig_hex)`: recover the address from
the personal-sign envelope and compare case-insensitively; recovery failure
(the `except` branch) yields `False`.  `recover` abstracts
`Account.recover_message`. -/
def verify_signature (recover : String → String → Option String)
    (sender message sig : String) : Bool :=
  match recover message sig with
  | some recovered => pyLower recovered == pyLower sender
  | none => false

/-- `cid_from_payload(payload)`: SHA-256 hex of the canonical JSON encoding
(sorted keys, separators `(',', ':')`).  `sha` abstracts `sha256_hex` over
the UTF-8 encoded text. -/
def cid_from_payload (sha : String → String) (payload : Json) : String :=
  sha (Json.dumps "," ":" payload)

/-- `conversation_root_id(a, b)`: SHA-256 of the two lowercased addresses
in sorted order joined by `"|"`. -/
def conversation_root_id (sha : String → String) (a b : String) : String :=
  let a' := pyLower a
  let b' := pyLower b
  let lo := if strLe a' b' then a' else b'
  let hi := if strLe a' b' then b' else a'
  sha (lo ++ "|" ++ hi)

/-- `compute_session_id(root_id, ts, window_secs)`:
SHA-256 of `"{root_id}|{window_start}"` where
`window_start = ts - (ts % window_secs)` (Lean's `Int.emod` agrees with
Python's `%` for the positive window sizes used). -/
def compute_session_id (sha : String → String) (root_id : String)
    (ts W : Int) : String :=
  sha (root_id ++ "|" ++ toString (ts - ts % W))

/-! ## Local content store (`storage.py`)

One slot models one `relayer_{i}` directory: an association list from the
file-name stem (the CID) to the parsed JSON content of `{cid}.json`.
The store is the list of the `REDUNDANCY` slots in index order. -/

/-- One `relayer_{i}` directory: file stem (CID) ↦ parsed JSON content. -/
abbrev Slot := List (String × Json)

/-- The whole local store: slots `relayer_0 .. relayer_{N-1}` in order. -/
abbrev FS := List Slot

/-- Overwrite (or create) file `{k}.json` in a slot with content `v`. -/
def slotWrite (s : Slot) (k : String) (v : Json) : Slot :=
  (k, v) :: s.filter (fun e => e.1 ≠ k)

/-- Read file `{k}.json` from a slot, `none` when absent. -/
def slotRead (s : Slot) (k : String) : Option Json :=
  (s.find? (fun e => e.1 == k)).map (·.2)

/-- `store_local(payload)`: compute the CID and write `{cid}.json` into
every slot with a plain `open(..., "w")`; return the CID. -/
def store_local (sha : String → String) (fs : FS) (payload : Json) :
    String × FS :=
  let cid := cid_from_payload sha payload
  (cid, fs.map (fun s => slotWrite s cid payload))

/-- `fetch_local(cid)`: iterate the slots in index order and return the
parsed content of the first existing `{cid}.json`, else `None`.  (The code
neither guards JSON decoding nor re-computes the CID.) -/
def fetch_local (fs : FS) (cid : String) : Option Json :=
  fs.findSome? (fun s => slotRead s cid)

/-- Byte size of the canonical compact JSON encoding of a stored file. -/
def fileBytes (v : Json) : Nat := (Json.dumps "," ":" v).utf8ByteSize

/-- Total size of a slot directory in bytes. -/
def slotSize (s : Slot) : Nat := (s.map (fun e => fileBytes e.2)).sum

/-- Spec-model of the write path, following §4.3 of the specification word
for word (this is the comparison definition for the refinement claim about
`store_local`; the code in `storage.py` is `store_local` above): for each
slot, a pre-existing `{cid}.json` counts as written; a slot whose projected
directory size would exceed the quota is skipped; otherwise the payload is
written (temp sibling + atomic rename, which in this model is the plain
`slotWrite`).  Fails with `StorageFull` when zero slots accepted. -/
def store_local_specModel (quota : Nat) (sha : String → String) (fs : FS)
    (payload : Json) : Except String (String × FS) :=
  let cid := cid_from_payload sha payload
  let b := fileBytes payload
  let step := fun (acc : Nat × FS) (s : Slot) =>
    if (slotRead s cid).isSome then (acc.1 + 1, acc.2 ++ [s])
    else if slotSize s + b > quota then (acc.1, acc.2 ++ [s])
    else (acc.1 + 1, acc.2 ++ [slotWrite s cid payload])
  let r := fs.foldl step (0, [])
  if r.1 = 0 then .error "StorageFull" else .ok (cid, r.2)

/-- Spec-model of the read path, following §4.3 of the specification word
for word (comparison definition for the refinement claim about
`fetch_local`): return the first slot content that decodes as JSON — every
stored value in this model is decoded JSON — and whose re-computed CID
equals the key; otherwise null. -/
def fetch_local_specModel (sha : String → String) (fs : FS) (cid : String) :
    Option Json :=
  fs.findSome? (fun s =>
    match slotRead s cid with
    | some p => if cid_from_payload sha p = cid then some p else none
    | none => none)

example : Json.dumps "," ":" (Json.obj [("b", .num 2), ("a", .num 1)]) =
    "\x7b\"a\":1,\"b\":2\x7d" := by rfl

example : Json.dumps ", " ": " (Json.obj [("b", .num 2), ("a", .num 1)]) =
    "\x7b\"a\": 1, \"b\": 2\x7d" := by rfl

example : pyLower "0xAbC" = "0xabc" := by rfl

example : fetch_local [[("c1", .num 1)], []] "c1" = some (.num 1) := by rfl

/-! ## Database model (`database.py` tables) and API error kinds -/

/-- A row of the `messages` table. -/
structure Msg where
  id : Nat
  cid : String
  sender : String
  recipient : String
  timestamp : Int
  delivered : Bool
  root_id : String
  session_id : String
  committed : Bool
deriving Repr, DecidableEq

/-- A row of the `blocks` table (`cids` is stored comma-joined, as
`append_block` writes it). -/
structure Block where
  idx : Nat
  previous_hash : String
  merkle_root : String
  cids : String
  proposer : String
  signature : String
  timestamp : Int
deriving Repr, DecidableEq

/-- The node's SQLite state.  `nextId` / `nextIdx` model the AUTOINCREMENT
counters of `messages.id` and `blocks.idx`. -/
structure DB where
  messages : List Msg
  nextId : Nat
  blocks : List Block
  nextIdx : Nat
  peers : List (String × Int)
deriving Repr, DecidableEq

/-- The error details raised as `HTTPException` by the handlers. -/
inductive ApiErr where
  | missingFields
  | signatureMismatch
  | payloadTooLarge
  | cidMismatch
deriving Repr, DecidableEq

/-! ## Blockchain (`blockchain.py`) -/

/-- `merkle_root_from_cids(cids)`: SHA-256 of the bare concatenation. -/
def merkle_root_from_cids (sha : String → String) (cids : List String) : String :=
  sha (String.join cids)

/-- The row `SELECT ... ORDER BY idx DESC LIMIT 1` returns. -/
def topBlock : List Block → Option Block
  | [] => none
  | b :: bs =>
      match topBlock bs with
      | none => some b
      | some a => if a.idx < b.idx then some b else some a

/-- `last_block_hash()`: hash of
`"{idx}|{previous_hash}|{merkle_root}|{cids}|{proposer}|{timestamp}"` of the
highest-idx block (the stored signature is skipped), or 64 zeros when the
table is empty. -/
def last_block_hash (sha : String → String) (db : DB) : String :=
  match topBlock db.blocks with
  | none => String.mk (List.replicate 64 '0')
  | some r =>
      sha (toString r.idx ++ "|" ++ r.previous_hash ++ "|" ++ r.merkle_root ++
        "|" ++ r.cids ++ "|" ++ r.proposer ++ "|" ++ toString r.timestamp)

/-- `append_block(...)`: insert a block row (cids comma-joined) and return
its idx (`lastrowid`). -/
def append_block (db : DB) (previous_hash merkle_root : String)
    (cids : List String) (proposer signature : String) (ts : Int) : DB × Nat :=
  let b : Block :=
    { idx := db.nextIdx, previous_hash := previous_hash,
      merkle_root := merkle_root, cids := String.intercalate "," cids,
      proposer := proposer, signature := signature, timestamp := ts }
  ({ db with blocks := db.blocks ++ [b], nextIdx := db.nextIdx + 1 }, db.nextIdx)

/-- A `BlockProposal` as received by `/api/proposal` / consumed by
`commit_block`. -/
structure Proposal where
  previous_hash : String
  merkle_root : String
  cids : List String
  proposer : String
  timestamp : Int
  signature : String
deriving Repr, DecidableEq

/-- The canonical signing text of a proposal:
`json.dumps([previous_hash, merkle_root, cids, proposer, timestamp],
sort_keys=True)` with Python's default separators. -/
def proposal_sign_text (p : Proposal) : String :=
  Json.dumps ", " ": " (Json.arr
    [.str p.previous_hash, .str p.merkle_root, .arr (p.cids.map .str),
     .str p.proposer, .num p.timestamp])

/-- Sequentially run `UPDATE messages SET <f> WHERE <key> = k` for each `k`
in `ks` — the loop shape `commit_block` and `acknowledge_messages` use. -/
def markLoop {α : Type} [DecidableEq α] (key : Msg → α) (f : Msg → Msg)
    (ms : List Msg) (ks : List α) : List Msg :=
  ks.foldl (fun acc k => acc.map (fun m => if key m = k then f m else m)) ms

/-- `commit_block(proposal)`: guard that the proposal extends the current
head (RuntimeError otherwise), re-derive the merkle root, append a block
row, and set `committed = 1` for every message row whose cid is in the
batch.  `ts` models `int(time.time())` at the insert. -/
def commit_block (sha : String → String) (db : DB) (p : Proposal) (ts : Int) :
    Except String DB :=
  if p.previous_hash ≠ last_block_hash sha db then
    .error "Chain head mismatch"
  else
    let merkle := merkle_root_from_cids sha p.cids
    let (db1, _) := append_block db p.previous_hash merkle p.cids p.proposer
      p.signature ts
    .ok { db1 with
          messages := markLoop (fun m => m.cid)
            (fun m => { m with committed := true }) db1.messages p.cids }

/-! ## Relay handlers (`main.py`) -/

/-- A `DeliverMessage` request body. -/
structure DeliverReq where
  cid : String
  sender : String
  recipient : String
  timestamp : Int
  ethSignature : String
  sessionId : Option String
deriving Repr, DecidableEq

/-- Python truthiness of `all([cid, sender, recipient, timestamp,
ethSignature])`: non-empty strings and a non-zero timestamp. -/
def deliverFieldsPresent (req : DeliverReq) : Bool :=
  req.cid ≠ "" && req.sender ≠ "" && req.recipient ≠ "" &&
    req.timestamp ≠ 0 && req.ethSignature ≠ ""

/-- The signed text of a deliver request:
`"{cid}|{sender}|{recipient}|{timestamp}"`. -/
def deliver_msg_text (req : DeliverReq) : String :=
  req.cid ++ "|" ++ req.sender ++ "|" ++ req.recipient ++ "|" ++
    toString req.timestamp

/-- The message row the deliver handler inserts (before any optimistic
update): derived `root_id`, the client `sessionId` if truthy else the
server-side windowed session id, `delivered = 0`, `committed = 0`, and the
AUTOINCREMENT id. -/
def deliverRow (sha : String → String) (W : Int) (db : DB)
    (req : DeliverReq) : Msg :=
  let root_id := conversation_root_id sha req.sender req.recipient
  let session_id :=
    match req.sessionId with
    | some s =>
        if s = "" then compute_session_id sha root_id req.timestamp W else s
    | none => compute_session_id sha root_id req.timestamp W
  { id := db.nextId, cid := req.cid, sender := req.sender,
    recipient := req.recipient, timestamp := req.timestamp,
    delivered := false, root_id := root_id, session_id := session_id,
    committed := false }

/-- `POST /api/deliver`: reject on missing fields, verify the sender's
signature, insert the `deliverRow` message row, and — when the recipient's
lowercased address has a live WebSocket (`online`) — optimistically set
`delivered = 1` on the new row.  Returns the new row id. -/
def deliver (recover : String → String → Option String)
    (sha : String → String) (W : Int) (online : String → Bool) (db : DB)
    (req : DeliverReq) : Except ApiErr (DB × Nat) :=
  if ¬ deliverFieldsPresent req then .error .missingFields
  else if ¬ verify_signature recover req.sender (deliver_msg_text req)
      req.ethSignature then .error .signatureMismatch
  else
    let m : Msg := deliverRow sha W db req
    let db1 := { db with messages := db.messages ++ [m],
                         nextId := db.nextId + 1 }
    if online (pyLower req.recipient) then
      .ok ({ db1 with
             messages := db1.messages.map
               (fun x => if x.id = m.id then { x with delivered := true }
                         else x) }, m.id)
    else
      .ok (db1, m.id)

/-- An `/api/ack` request body (`messageIds` arrive as JSON integers). -/
structure AckReq where
  recipient : String
  messageIds : List Int
  ethSignature : String
deriving Repr, DecidableEq

/-- The signed text of an ack: `"ack|{recipient}|{id1,id2,...}"`. -/
def ack_message_text (recipient : String) (ids : List Int) : String :=
  "ack|" ++ recipient ++ "|" ++ String.intercalate "," (ids.map toString)

/-- `POST /api/ack`: reject on missing fields, verify the recipient's
signature over the ack text, then run
`UPDATE messages SET delivered = 1 WHERE id = ?` for each listed id —
with no check that the row's stored recipient is the signer. -/
def acknowledge_messages (recover : String → String → Option String)
    (db : DB) (req : AckReq) : Except ApiErr DB :=
  if req.recipient = "" ∨ req.messageIds = [] ∨ req.ethSignature = "" then
    .error .missingFields
  else if ¬ verify_signature recover req.recipient
      (ack_message_text req.recipient req.messageIds) req.ethSignature then
    .error .signatureMismatch
  else
    .ok { db with
          messages := markLoop (fun m => (m.id : Int))
            (fun m => { m with delivered := true }) db.messages
            req.messageIds }

/-- `POST /api/uploadEncrypted`: measure `json.dumps(payload,
sort_keys=True)` — Python's default, space-padded separators — against
`max_payload_bytes`; reject with 413 when larger, else `store_local` and
return the CID (peer replication is background work outside this model). -/
def upload_encrypted (sha : String → String) (maxPayloadBytes : Nat)
    (fs : FS) (payload : Json) : Except ApiErr (String × FS) :=
  if (Json.dumps ", " ": " payload).utf8ByteSize > maxPayloadBytes then
    .error .payloadTooLarge
  else
    .ok (store_local sha fs payload)

/-- Sort relation of the conversation query:
`ORDER BY timestamp DESC, id DESC` — `a` comes no later than `b`. -/
def newerRel (a b : Msg) : Prop :=
  b.timestamp < a.timestamp ∨ (a.timestamp = b.timestamp ∧ b.id ≤ a.id)

instance : DecidableRel newerRel := fun a b =>
  inferInstanceAs (Decidable (b.timestamp < a.timestamp ∨
    (a.timestamp = b.timestamp ∧ b.id ≤ a.id)))

instance : IsTotal Msg newerRel := ⟨by intro a b; unfold newerRel; omega⟩

instance : IsTrans Msg newerRel := ⟨by intro a b c; unfold newerRel; omega⟩

/-- The limit normalization at the top of the conversation handler:
`if limit <= 0: limit = 50` then `if limit > 500: limit = 500`. -/
def effLimit (limit : Int) : Int :=
  let lim : Int := if limit ≤ 0 then 50 else limit
  if lim > 500 then 500 else lim

/-- The `WHERE` clause of the conversation query: `root_id = ?` and, when
`before` is supplied, `timestamp < ?`. -/
def convPredicate (root_id : String) (before : Option Int) (m : Msg) : Bool :=
  m.root_id == root_id &&
    match before with
    | none => true
    | some b => decide (m.timestamp < b)

/-- `GET /api/conversation/{root_id}?limit&before`: a non-positive limit is
replaced by the default 50, a limit above 500 is clamped to 500; rows with
the given `root_id` (and `timestamp < before` when given) are returned
newest first, at most `limit` many. -/
def conversation_history (db : DB) (root_id : String) (limit : Int)
    (before : Option Int) : List Msg :=
  (List.insertionSort newerRel
    (db.messages.filter (convPredicate root_id before))).take
    (effLimit limit).toNat

/-- The reply body of `POST /api/proposal`. -/
structure VoteReply where
  vote : Bool
  reason : Option String
  have_count : Option Nat
deriving Repr, DecidableEq

/-- `POST /api/proposal`: vote no with a reason at the first failing check
(chain head, merkle root, proposer signature, local data), else vote yes
with the count of locally held cids. -/
def receive_proposal (recover : String → String → Option String)
    (sha : String → String) (db : DB) (fs : FS) (p : Proposal) : VoteReply :=
  if p.previous_hash ≠ last_block_hash sha db then
    ⟨false, some "head_mismatch", none⟩
  else if merkle_root_from_cids sha p.cids ≠ p.merkle_root then
    ⟨false, some "merkle_mismatch", none⟩
  else if ¬ verify_signature recover p.proposer (proposal_sign_text p)
      p.signature then
    ⟨false, some "invalid_signature", none⟩
  else
    let haveCount := p.cids.countP (fun c => (fetch_local fs c).isSome)
    if haveCount = 0 then ⟨false, some "no_local_data", none⟩
    else ⟨true, none, some haveCount⟩

/-! ## Peer registration (`register_peer` in `main.py`) -/

/-- The result of Python's `urllib.parse.urlparse` on the submitted URL.
`hostname` is the lowercased host (empty string models `None`), `netloc`
the raw authority. -/
structure ParsedUrl where
  scheme : String
  netloc : String
  hostname : String
  path : String
  query : String
  fragment : String
deriving Repr, DecidableEq

/-- The configuration keys `register_peer` consults. -/
structure NodeSettings where
  require_peer_auth : Bool
  peer_allowlist : List String
  allow_local_peers : Bool
deriving Repr, DecidableEq

/-- The `HTTPException` details `register_peer` can raise. -/
inductive PeerErr where
  | invalidUrl
  | unsupportedScheme
  | invalidHost
  | queryOrFragment
  | notBaseOrigin
  | authRequired
  | staleTimestamp
  | invalidSignature
  | peerNotAllowed
  | localNotAllowed
deriving Repr, DecidableEq

/-- The local-peer test of `register_peer`:
`host in ("localhost", "127.0.0.1") or host.startswith("10.") or
host.startswith("192.168.")`. -/
def isLocalHost (host : String) : Bool :=
  host == "localhost" || host == "127.0.0.1" || strStarts host "10." ||
    strStarts host "192.168."

/-- `POST /api/register_peer`: validate the URL shape, canonicalize to
`scheme://netloc` without trailing slashes, optionally check the signed
admission (auth requirement, ±300 s replay window, signature, allowlist),
apply the local-peer policy, and upsert `(canon, now)` into `peers`.
`urlparse` abstracts `urllib.parse.urlparse`. -/
def register_peer (recover : String → String → Option String)
    (urlparse : String → ParsedUrl) (cfg : NodeSettings) (now : Int)
    (db : DB) (rawUrl : Option String) (address : Option String)
    (signature : Option String) (ts : Option Int) :
    Except PeerErr (DB × String) :=
  match rawUrl with
  | none => .error .invalidUrl
  | some raw =>
    if raw = "" ∨ raw.length > 2048 then .error .invalidUrl
    else
      let parsed := urlparse raw
      if parsed.scheme ≠ "http" ∧ parsed.scheme ≠ "https" then
        .error .unsupportedScheme
      else if parsed.netloc = "" ∨ strHasChar parsed.netloc '@' then
        .error .invalidHost
      else if parsed.query ≠ "" ∨ parsed.fragment ≠ "" then
        .error .queryOrFragment
      else if parsed.path ≠ "" ∧ parsed.path ≠ "/" then
        .error .notBaseOrigin
      else
        let canon := rstripSlash (parsed.scheme ++ "://" ++ parsed.netloc)
        let authCheck : Except PeerErr Unit :=
          if cfg.require_peer_auth then
            match address, ts, signature with
            | some a, some t, some sg =>
                if a = "" ∨ sg = "" then .error .authRequired
                else if 300 < (now - t).natAbs then .error .staleTimestamp
                else if ¬ verify_signature recover a
                    ("register|" ++ canon ++ "|" ++ toString t ++ "|" ++ a)
                    sg then .error .invalidSignature
                else if cfg.peer_allowlist ≠ [] ∧
                    pyLower a ∉ cfg.peer_allowlist.map pyLower then
                  .error .peerNotAllowed
                else .ok ()
            | _, _, _ => .error .authRequired
          else .ok ()
        match authCheck with
        | .error e => .error e
        | .ok _ =>
            if ¬ cfg.allow_local_peers ∧ isLocalHost parsed.hostname then
              .error .localNotAllowed
            else
              .ok ({ db with
                     peers := db.peers.filter (fun pr => pr.1 ≠ canon) ++
                       [(canon, now)] }, canon)

/-! ## The node's state-changing operations, as one step relation -/

/-- One inbound operation of the node: a deliver request (with the current
presence map), an ack, a block commit, or any of the read-only queries
(user lookup, undelivered, fetch, conversation, peers, health — none of
which touch the `messages` table). -/
inductive NodeOp where
  | opDeliver (online : String → Bool) (req : DeliverReq)
  | opAck (req : AckReq)
  | opCommit (p : Proposal) (ts : Int)
  | opQuery

/-- Apply one operation to the database; a handler that raises leaves the
state unchanged (the raise happens before any write). -/
def applyOp (recover : String → String → Option String)
    (sha : String → String) (W : Int) (db : DB) : NodeOp → DB
  | .opDeliver online req =>
      match deliver recover sha W online db req with
      | .ok (db', _) => db'
      | .error _ => db
  | .opAck req =>
      match acknowledge_messages recover db req with
      | .ok db' => db'
      | .error _ => db
  | .opCommit p ts =>
      match commit_block sha db p ts with
      | .ok db' => db'
      | .error _ => db
  | .opQuery => db

/-! ## Helper lemmas -/

/-- Reading back the key just written returns the new content. -/
theorem slotRead_write_same (s : Slot) (k : String) (v : Json) :
    slotRead (slotWrite s k v) k = some v := by
  simp [slotRead, slotWrite, List.find?_cons]

/-- Writing one key leaves every other key's content unchanged. -/
theorem slotRead_write_other (s : Slot) (k k' : String) (v : Json)
    (h : k' ≠ k) : slotRead (slotWrite s k v) k' = slotRead s k' := by
  unfold slotRead slotWrite
  rw [List.find?_cons_of_neg _ (by simpa using Ne.symm h)]
  congr 1
  induction s with
  | nil => rfl
  | cons e es ih =>
      by_cases he : e.1 = k
      · rw [List.filter_cons_of_neg (by simpa using he),
          List.find?_cons_of_neg _ (by simp [he]; exact Ne.symm h)]
        exact ih
      · rw [List.filter_cons_of_pos (by simpa using he)]
        by_cases he' : e.1 = k'
        · rw [List.find?_cons_of_pos _ (by simpa using he'),
            List.find?_cons_of_pos _ (by simpa using he')]
        · rw [List.find?_cons_of_neg _ (by simpa using he'),
            List.find?_cons_of_neg _ (by simpa using he')]
          exact ih

/-- The sequential per-key `UPDATE` loop equals one pass that touches every
row whose key is listed, provided the update preserves the key and is
idempotent. -/
theorem markLoop_eq_map {α : Type} [DecidableEq α] (key : Msg → α)
    (f : Msg → Msg) (hkey : ∀ m, key (f m) = key m)
    (hidem : ∀ m, f (f m) = f m) (ms : List Msg) (ks : List α) :
    markLoop key f ms ks = ms.map (fun m => if key m ∈ ks then f m else m) := by
  induction ks generalizing ms with
  | nil => simp [markLoop]
  | cons k ks ih =>
      show markLoop key f (ms.map fun m => if key m = k then f m else m) ks = _
      rw [ih, List.map_map]
      refine List.map_congr_left (fun m _ => ?_)
      by_cases hk : key m = k
      · simp only [Function.comp, hk, if_pos rfl, hkey, hidem,
          List.mem_cons, true_or, if_pos]
        by_cases hks : k ∈ ks <;> simp [hks]
      · simp only [Function.comp, if_neg hk, List.mem_cons]
        by_cases hks : key m ∈ ks <;> simp [hks, hk]

/-- AUTOINCREMENT invariant of the `messages` table: every stored id is
below the next id to be handed out. -/
def FreshIds (db : DB) : Prop := ∀ m ∈ db.messages, m.id < db.nextId

instance (db : DB) : Decidable (FreshIds db) :=
  inferInstanceAs (Decidable (∀ m ∈ db.messages, m.id < db.nextId))

/-! ## Concrete oracles and fixtures used by witnesses -/

/-- A stand-in hash for concrete evaluations: prefixes a marker character
(injective on its uses, never equal to a plain short string). -/
def shaT (s : String) : String := "#" ++ s

/-- A recovery oracle under which every signature recovers to `0xaa`. -/
def recT (_message _sig : String) : Option String := some "0xaa"

/-- A recovery oracle under which recovery always fails. -/
def recNone (_message _sig : String) : Option String := none

/-- An empty database (AUTOINCREMENT counters at 1, as SQLite starts). -/
def dbEmpty : DB :=
  { messages := [], nextId := 1, blocks := [], nextIdx := 1, peers := [] }

example : FreshIds dbEmpty := by decide

example : verify_signature recT "0xAA" "anything" "sig" = true := by decide

/-! ## Claim C2 — `fetch_local` -/

/-- Claim C2 (amended): `fetch_local` iterates the slots in order and
returns the stored content of the first slot holding a file under the key
— without decoding checks and without re-computing the CID — and returns
null exactly when no slot holds the key. -/
theorem C2_fetch_local_first_hit (fs : FS) (cid : String) :
    (fetch_local fs cid = none ↔ ∀ s ∈ fs, slotRead s cid = none) ∧
    (∀ p, fetch_local fs cid = some p ↔
       ∃ pre s post, fs = pre ++ s :: post ∧ slotRead s cid = some p ∧
         ∀ s' ∈ pre, slotRead s' cid = none) := by
  constructor
  · exact List.findSome?_eq_none_iff
  · intro p
    exact List.findSome?_eq_some_iff

/-- Claim C2 as stated is false on the code: a slot can hold, under key
`"abc"`, a payload whose re-computed CID is not `"abc"`; `fetch_local`
returns that payload anyway, while the specification's read (which
re-computes the CID) would return null. -/
theorem C2_cid_not_rechecked :
    fetch_local [[("abc", Json.obj [])]] "abc" = some (Json.obj []) ∧
    cid_from_payload shaT (Json.obj []) ≠ "abc" ∧
    fetch_local_specModel shaT [[("abc", Json.obj [])]] "abc" = none := by
  refine ⟨rfl, by decide, rfl⟩

/-! ## Claim C3 — `store_local` -/

/-- Claim C3 (amended): `store_local` writes the payload unconditionally
into every slot with a plain overwrite — no existence shortcut, no quota
check, no temp-and-rename — returns the CID, and never fails: afterwards
every slot holds the payload under its CID, other keys are untouched, and
`fetch_local` on the CID round-trips. -/
theorem C3_store_local_unconditional (sha : String → String) (fs : FS)
    (payload : Json) :
    (store_local sha fs payload).1 = cid_from_payload sha payload ∧
    (store_local sha fs payload).2.length = fs.length ∧
    (∀ (i : Nat) (s : Slot), fs[i]? = some s →
       ∃ s', (store_local sha fs payload).2[i]? = some s' ∧
         slotRead s' (cid_from_payload sha payload) = some payload ∧
         ∀ k, k ≠ cid_from_payload sha payload → slotRead s' k = slotRead s k) ∧
    (0 < fs.length →
       fetch_local (store_local sha fs payload).2
         (cid_from_payload sha payload) = some payload) := by
  refine ⟨rfl, by simp [store_local], ?_, ?_⟩
  · intro i s hs
    refine ⟨slotWrite s (cid_from_payload sha payload) payload, ?_, ?_, ?_⟩
    · simp [store_local, List.getElem?_map, hs]
    · exact slotRead_write_same _ _ _
    · intro k hk
      exact slotRead_write_other _ _ _ _ hk
  · intro hlen
    match fs, hlen with
    | s₀ :: rest, _ =>
        simp [store_local, fetch_local, List.findSome?_cons,
          slotRead_write_same]

/-- Claim C3 as stated is false on the code: with a quota of 0 bytes the
specification's write path accepts zero slots and fails with
`StorageFull`, but `store_local` has no quota check and no failure path —
it writes the payload and returns the CID. -/
theorem C3_no_storage_full :
    store_local_specModel 0 shaT [[]] (Json.obj []) = .error "StorageFull" ∧
    store_local shaT [[]] (Json.obj []) =
      ("#\x7b\x7d", [[("#\x7b\x7d", Json.obj [])]]) := by
  exact ⟨rfl, rfl⟩

/-! ## Claim C6 — `upload_encrypted` size gate -/

/-- Claim C6 (amended): the size gate measures
`json.dumps(payload, sort_keys=True)` with Python's default space-padded
separators — not the canonical compact encoding: the upload succeeds,
storing the payload and returning its CID, exactly when that padded byte
size is at most `max_payload_bytes`, and fails with `PayloadTooLarge`
(storing nothing) otherwise. -/
theorem C6_upload_size_gate (sha : String → String) (maxB : Nat) (fs : FS)
    (p : Json) :
    (maxB < (Json.dumps ", " ": " p).utf8ByteSize →
       upload_encrypted sha maxB fs p = .error .payloadTooLarge) ∧
    ((Json.dumps ", " ": " p).utf8ByteSize ≤ maxB →
       upload_encrypted sha maxB fs p =
         .ok (cid_from_payload sha p, (store_local sha fs p).2)) := by
  refine ⟨fun h => ?_, fun h => ?_⟩
  · unfold upload_encrypted
    rw [if_pos (by omega)]
  · unfold upload_encrypted
    rw [if_neg (by omega)]
    rfl

/-- A payload whose canonical compact encoding is 13 bytes while the
handler's padded measurement is 16 bytes. -/
def p6 : Json := Json.obj [("a", .num 1), ("b", .num 2)]

/-- Claim C6 as stated is false on the code: `p6`'s canonical size is
within a 14-byte `max_payload_bytes`, yet `upload_encrypted` rejects it
with `PayloadTooLarge`, because the handler measures the default padded
`json.dumps` encoding. -/
theorem C6_canonical_within_but_rejected :
    (Json.dumps "," ":" p6).utf8ByteSize ≤ 14 ∧
    upload_encrypted shaT 14 [[]] p6 = .error .payloadTooLarge := by
  exact ⟨by decide, rfl⟩

/-! ## Claim C7 — conversation query -/

/-- Claim C7 (amended): a non-positive requested limit is replaced by the
default 50 (not clamped to 1) and a limit above 500 is clamped to 500; the
response holds at most that many rows, each a stored row matching the root
and the strict `before` bound, ordered newest first (timestamp descending,
id descending on ties). -/
theorem C7_conversation_query (db : DB) (root : String) (limit : Int)
    (before : Option Int) :
    effLimit limit =
      (if limit ≤ 0 then 50 else if 500 < limit then 500 else limit) ∧
    (conversation_history db root limit before).length ≤
      (effLimit limit).toNat ∧
    (∀ m ∈ conversation_history db root limit before,
       m ∈ db.messages ∧ m.root_id = root ∧
         ∀ b, before = some b → m.timestamp < b) ∧
    (conversation_history db root limit before).Pairwise newerRel := by
  refine ⟨?_, ?_, ?_, ?_⟩
  · simp only [effLimit]
    split_ifs <;> omega
  · exact List.length_take_le _ _
  · intro m hm
    have hsort : m ∈ List.insertionSort newerRel
        (db.messages.filter (convPredicate root before)) :=
      List.take_subset _ _ hm
    have hfil := (List.perm_insertionSort newerRel _).subset hsort
    have hmem := (List.mem_filter.mp hfil).1
    have hpred := (List.mem_filter.mp hfil).2
    unfold convPredicate at hpred
    have hroot : m.root_id = root := by
      have := (Bool.and_eq_true _ _).mp hpred |>.1
      simpa using this
    refine ⟨hmem, hroot, fun b hb => ?_⟩
    subst hb
    have := (Bool.and_eq_true _ _).mp hpred |>.2
    exact of_decide_eq_true this
  · exact ((List.sorted_insertionSort newerRel _).sublist
      (List.take_sublist _ _))

/-- Two messages in one conversation, used to refute the clamp claim. -/
def mA : Msg :=
  { id := 1, cid := "c1", sender := "a", recipient := "b", timestamp := 10,
    delivered := false, root_id := "r", session_id := "s", committed := false }

/-- A second, newer message in the same conversation. -/
def mB : Msg := { mA with id := 2, timestamp := 20 }

/-- A database holding the two conversation rows. -/
def db7 : DB :=
  { messages := [mA, mB], nextId := 3, blocks := [], nextIdx := 1,
    peers := [] }

/-- Claim C7 as stated is false on the code: clamping `limit = 0` into
`[1, 500]` would allow at most one row, but the handler replaces a
non-positive limit with the default 50 and returns both matching rows. -/
theorem C7_zero_limit_gives_default :
    (conversation_history db7 "r" 0 none).length = 2 ∧
    ¬ (conversation_history db7 "r" 0 none).length ≤
        (max 1 (min 500 (0 : Int))).toNat := by
  exact ⟨by decide, by decide⟩

/-! ## Claim C8 — local peer policy -/

/-- Claim C8 (amended): with `allow_local_peers = false` (and peer auth not
required), a registration that passes every URL-shape check is rejected —
with no peer row upserted — exactly for the hosts the code pattern-matches:
`localhost`, `127.0.0.1`, and hosts starting with `10.` or `192.168.`.
Hosts in 172.16.0.0/12 do not match and are not rejected. -/
theorem C8_local_policy (recover : String → String → Option String)
    (urlparse : String → ParsedUrl) (cfg : NodeSettings) (now : Int)
    (db : DB) (raw : String) (address signature : Option String)
    (ts : Option Int)
    (hraw : raw ≠ "") (hlen : raw.length ≤ 2048)
    (hscheme : (urlparse raw).scheme = "http" ∨
      (urlparse raw).scheme = "https")
    (hnet : (urlparse raw).netloc ≠ "")
    (hat : strHasChar (urlparse raw).netloc '@' = false)
    (hq : (urlparse raw).query = "") (hf : (urlparse raw).fragment = "")
    (hpath : (urlparse raw).path = "" ∨ (urlparse raw).path = "/")
    (hauth : cfg.require_peer_auth = false)
    (hlocal : cfg.allow_local_peers = false)
    (hhost : isLocalHost (urlparse raw).hostname = true) :
    register_peer recover urlparse cfg now db (some raw) address signature
      ts = .error .localNotAllowed := by
  unfold register_peer
  dsimp only
  rw [if_neg (by push_neg; exact ⟨hraw, by omega⟩)]
  rw [if_neg (by rcases hscheme with h | h <;> simp [h])]
  rw [if_neg (by push_neg; exact ⟨hnet, by simp [hat]⟩)]
  rw [if_neg (by push_neg; exact ⟨hq, hf⟩)]
  rw [if_neg (by rcases hpath with h | h <;> simp [h])]
  rw [hauth]
  simp only [Bool.false_eq_true, if_false]
  rw [if_pos ⟨by simp [hlocal], hhost⟩]

/-- `urlparse` output for `http://10.0.0.5:3000`. -/
def parseTen : ParsedUrl :=
  { scheme := "http", netloc := "10.0.0.5:3000", hostname := "10.0.0.5",
    path := "", query := "", fragment := "" }

/-- A parse oracle for the 10.0.0.5 registration. -/
def urlparseTen : String → ParsedUrl := fun _ => parseTen

/-- `urlparse` output for `http://172.16.0.1`. -/
def parse172 : ParsedUrl :=
  { scheme := "http", netloc := "172.16.0.1", hostname := "172.16.0.1",
    path := "", query := "", fragment := "" }

/-- A parse oracle for the 172.16.0.1 registration. -/
def urlparse172 : String → ParsedUrl := fun _ => parse172

/-- Settings with the local-peer policy switched on (auth off). -/
def cfgNoLocal : NodeSettings :=
  { require_peer_auth := false, peer_allowlist := [],
    allow_local_peers := false }

/-- A 10.0.0.0/8 host is rejected by the local-peer policy (instance of
`C8_local_policy` at a concrete input). -/
theorem C8_local_policy_witness :
    register_peer recT urlparseTen cfgNoLocal 1000 dbEmpty
      (some "http://10.0.0.5:3000") none none none =
      .error .localNotAllowed :=
  C8_local_policy recT urlparseTen cfgNoLocal 1000 dbEmpty
    "http://10.0.0.5:3000" none none none (by decide) (by decide)
    (Or.inl rfl) (by decide) rfl rfl rfl (Or.inl rfl) rfl rfl rfl

/-- Claim C8 as stated is false on the code: with
`allow_local_peers = false`, a registration for `http://172.16.0.1` — an
RFC1918 172.16.0.0/12 address — is accepted and its peer row upserted,
because the code only pattern-matches `localhost`, `127.0.0.1`, `10.` and
`192.168.`. -/
theorem C8_rfc1918_gap :
    register_peer recT urlparse172 cfgNoLocal 1000 dbEmpty
      (some "http://172.16.0.1") none none none =
      .ok ({ dbEmpty with peers := [("http://172.16.0.1", 1000)] },
        "http://172.16.0.1") := by
  rfl

/-! ## Claim C4 — `/api/proposal` voting -/

/-- Claim C4: the proposal handler votes yes — with the count of locally
held cids — exactly when the previous hash matches the local head, the
merkle root matches `sha256(concat(cids))`, the signature over the
canonical JSON of the proposal tuple recovers to the proposer, and at
least one proposed CID is held locally; otherwise it votes no with the
reason of the first failing check, in that order. -/
theorem C4_proposal_vote (recover : String → String → Option String)
    (sha : String → String) (db : DB) (fs : FS) (p : Proposal) :
    ((receive_proposal recover sha db fs p).vote = true ↔
      (p.previous_hash = last_block_hash sha db ∧
       merkle_root_from_cids sha p.cids = p.merkle_root ∧
       verify_signature recover p.proposer (proposal_sign_text p)
         p.signature = true ∧
       0 < p.cids.countP (fun c => (fetch_local fs c).isSome))) ∧
    ((receive_proposal recover sha db fs p).vote = true →
      receive_proposal recover sha db fs p =
        ⟨true, none,
         some (p.cids.countP (fun c => (fetch_local fs c).isSome))⟩) ∧
    (p.previous_hash ≠ last_block_hash sha db →
      receive_proposal recover sha db fs p =
        ⟨false, some "head_mismatch", none⟩) ∧
    (p.previous_hash = last_block_hash sha db →
     merkle_root_from_cids sha p.cids ≠ p.merkle_root →
      receive_proposal recover sha db fs p =
        ⟨false, some "merkle_mismatch", none⟩) ∧
    (p.previous_hash = last_block_hash sha db →
     merkle_root_from_cids sha p.cids = p.merkle_root →
     verify_signature recover p.proposer (proposal_sign_text p)
       p.signature = false →
      receive_proposal recover sha db fs p =
        ⟨false, some "invalid_signature", none⟩) ∧
    (p.previous_hash = last_block_hash sha db →
     merkle_root_from_cids sha p.cids = p.merkle_root →
     verify_signature recover p.proposer (proposal_sign_text p)
       p.signature = true →
     p.cids.countP (fun c => (fetch_local fs c).isSome) = 0 →
      receive_proposal recover sha db fs p =
        ⟨false, some "no_local_data", none⟩) := by
  by_cases h1 : p.previous_hash = last_block_hash sha db
  · by_cases h2 : merkle_root_from_cids sha p.cids = p.merkle_root
    · by_cases h3 : verify_signature recover p.proposer
          (proposal_sign_text p) p.signature = true
      · by_cases h4 :
            p.cids.countP (fun c => (fetch_local fs c).isSome) = 0
        · simp_all [receive_proposal]
        · have hpos : 0 < p.cids.countP (fun c => (fetch_local fs c).isSome) :=
            Nat.pos_of_ne_zero h4
          unfold receive_proposal
          rw [if_neg (by simp [h1]), if_neg (by simp [h2]),
            if_neg (by simp [h3]), if_neg h4]
          refine ⟨by simp [h1, h2, h3, hpos], fun _ => rfl, ?_, ?_, ?_, ?_⟩
          · intro hc; exact absurd h1 hc
          · intro _ hc; exact absurd h2 hc
          · intro _ _ hc; rw [h3] at hc; exact Bool.noConfusion hc
          · intro _ _ _ hc; exact absurd hc h4
      · simp_all [receive_proposal]
    · simp_all [receive_proposal]
  · simp_all [receive_proposal]

/-! ## Claim C1 — deliver: signature gate and single insert -/

/-- The optimistic-push `UPDATE ... WHERE id = ?` over an appended fresh
row touches only that row. -/
theorem map_setDelivered_append (ms : List Msg) (m : Msg) (i : Nat)
    (hm : m.id = i) (h : ∀ x ∈ ms, x.id ≠ i) :
    (ms ++ [m]).map
        (fun x => if x.id = i then { x with delivered := true } else x) =
      ms ++ [{ m with delivered := true }] := by
  rw [List.map_append]
  congr 1
  · calc ms.map (fun x => if x.id = i then { x with delivered := true }
          else x)
        = ms.map id := List.map_congr_left (fun x hx => by
            rw [if_neg (h x hx)]; rfl)
      _ = ms := List.map_id ms
  · simp [hm]

/-- Claim C1: for a deliver request whose fields are all present (truthy),
a signature that does not recover to the sender is rejected with
`SignatureMismatch` and nothing is written (the handler raises before any
database access, and an error carries no state); a verifying signature
appends exactly one new row — with id `nextId` — leaves every existing row
unchanged, and returns that id. -/
theorem C1_deliver_signature_gate
    (recover : String → String → Option String) (sha : String → String)
    (W : Int) (online : String → Bool) (db : DB) (req : DeliverReq)
    (hfresh : FreshIds db) (hfields : deliverFieldsPresent req = true) :
    (verify_signature recover req.sender (deliver_msg_text req)
        req.ethSignature = false →
      deliver recover sha W online db req = .error .signatureMismatch) ∧
    (verify_signature recover req.sender (deliver_msg_text req)
        req.ethSignature = true →
      ∃ m : Msg, m.id = db.nextId ∧
        deliver recover sha W online db req =
          .ok ({ db with messages := db.messages ++ [m],
                         nextId := db.nextId + 1 }, db.nextId)) := by
  constructor
  · intro hv
    unfold deliver
    rw [if_neg (by simp [hfields]), if_pos (by simp [hv])]
  · intro hv
    unfold deliver
    rw [if_neg (by simp [hfields]), if_neg (by simp [hv])]
    dsimp only
    by_cases hon : online (pyLower req.recipient) = true
    · rw [if_pos hon]
      rw [map_setDelivered_append db.messages (deliverRow sha W db req)
        ((deliverRow sha W db req).id) rfl
        (fun x hx => Nat.ne_of_lt (hfresh x hx))]
      exact ⟨_, rfl, rfl⟩
    · rw [if_neg hon]
      exact ⟨_, rfl, rfl⟩

/-- A well-formed deliver request used by the concrete instances. -/
def reqW : DeliverReq :=
  { cid := "c1", sender := "0xAA", recipient := "0xBB", timestamp := 100,
    ethSignature := "sig", sessionId := none }

/-- On an empty database, a verifying deliver inserts one row with id 1,
and a failing recovery is rejected with `SignatureMismatch` (instances of
`C1_deliver_signature_gate` at concrete inputs). -/
theorem C1_deliver_signature_gate_witness :
    (∃ m : Msg, m.id = dbEmpty.nextId ∧
       deliver recT shaT 3600 (fun _ => false) dbEmpty reqW =
         .ok ({ dbEmpty with messages := dbEmpty.messages ++ [m],
                             nextId := dbEmpty.nextId + 1 },
           dbEmpty.nextId)) ∧
    deliver recNone shaT 3600 (fun _ => false) dbEmpty reqW =
      .error .signatureMismatch := by
  refine ⟨(C1_deliver_signature_gate recT shaT 3600 (fun _ => false) dbEmpty
      reqW (by decide) (by decide)).2 (by decide),
    (C1_deliver_signature_gate recNone shaT 3600 (fun _ => false) dbEmpty
      reqW (by decide) (by decide)).1 (by decide)⟩

/-! ## Claim C5 — derived conversation identifiers -/

/-- Claim C5 (amended): every row inserted by a verified deliver carries
the derived `root_id`; its `session_id` is the derived windowed value when
the request supplies no `sessionId` (or an empty one), but is the
client-supplied value verbatim otherwise. -/
theorem C5_derived_ids (recover : String → String → Option String)
    (sha : String → String) (W : Int) (online : String → Bool) (db : DB)
    (req : DeliverReq) (db' : DB) (i : Nat)
    (hok : deliver recover sha W online db req = .ok (db', i)) :
    ∃ m : Msg, db'.messages[db.messages.length]? = some m ∧ m.id = i ∧
      m.root_id = conversation_root_id sha req.sender req.recipient ∧
      ((req.sessionId = none ∨ req.sessionId = some "") →
        m.session_id = compute_session_id sha
          (conversation_root_id sha req.sender req.recipient)
          req.timestamp W) ∧
      (∀ s, req.sessionId = some s → s ≠ "" → m.session_id = s) := by
  unfold deliver at hok
  by_cases hf : deliverFieldsPresent req = true
  · rw [if_neg (by simp [hf])] at hok
    by_cases hv : verify_signature recover req.sender (deliver_msg_text req)
        req.ethSignature = true
    · rw [if_neg (by simp [hv])] at hok
      dsimp only at hok
      by_cases hon : online (pyLower req.recipient) = true
      · rw [if_pos hon] at hok
        simp only [Except.ok.injEq, Prod.mk.injEq] at hok
        obtain ⟨hdb, hi⟩ := hok
        subst hdb; subst hi
        refine ⟨{ deliverRow sha W db req with delivered := true },
          ?_, rfl, rfl, ?_, ?_⟩
        · show (List.map _ (db.messages ++ [_]))[db.messages.length]? = _
          rw [List.getElem?_map, List.getElem?_concat_length]
          exact congrArg some (if_pos rfl)
        · rintro (h | h) <;> simp [deliverRow, h]
        · intro s hs hns
          simp [deliverRow, hs, hns]
      · rw [if_neg hon] at hok
        simp only [Except.ok.injEq, Prod.mk.injEq] at hok
        obtain ⟨hdb, hi⟩ := hok
        subst hdb; subst hi
        refine ⟨deliverRow sha W db req, ?_, rfl, rfl, ?_, ?_⟩
        · exact List.getElem?_concat_length _ _
        · rintro (h | h) <;> simp [deliverRow, h]
        · intro s hs hns
          simp [deliverRow, hs, hns]
    · rw [if_pos (by simp [hv])] at hok
      cases hok
  · rw [if_pos (by simp [hf])] at hok
    cases hok

/-- The row a verified `reqW` deliver writes into the empty database. -/
def m5 : Msg :=
  { id := 1, cid := "c1", sender := "0xAA", recipient := "0xBB",
    timestamp := 100, delivered := false, root_id := "#0xaa|0xbb",
    session_id := "##0xaa|0xbb|0", committed := false }

/-- The database after that deliver. -/
def db5 : DB :=
  { messages := [m5], nextId := 2, blocks := [], nextIdx := 1, peers := [] }

/-- The inserted row of a concrete verified deliver carries the derived
`root_id` and windowed `session_id` (instance of `C5_derived_ids`). -/
theorem C5_derived_ids_witness :
    ∃ m : Msg, db5.messages[dbEmpty.messages.length]? = some m ∧
      m.id = 1 ∧
      m.root_id = conversation_root_id shaT reqW.sender reqW.recipient ∧
      ((reqW.sessionId = none ∨ reqW.sessionId = some "") →
        m.session_id = compute_session_id shaT
          (conversation_root_id shaT reqW.sender reqW.recipient)
          reqW.timestamp 3600) ∧
      (∀ s, reqW.sessionId = some s → s ≠ "" → m.session_id = s) :=
  C5_derived_ids recT shaT 3600 (fun _ => false) dbEmpty reqW db5 1 (by rfl)

/-- The same deliver request with a client-chosen `sessionId`. -/
def reqX : DeliverReq := { reqW with sessionId := some "x" }

/-- The row the `reqX` deliver writes: the client session id verbatim. -/
def m5x : Msg := { m5 with session_id := "x" }

/-- The database after the `reqX` deliver. -/
def db5x : DB :=
  { messages := [m5x], nextId := 2, blocks := [], nextIdx := 1, peers := [] }

/-- Claim C5 as stated is false on the code: a deliver that passes
signature verification but supplies `sessionId = "x"` inserts a row whose
`session_id` is `"x"`, not the derived
`SHA256(root_id || "|" || (ts - ts mod W))`. -/
theorem C5_client_session_override :
    deliver recT shaT 3600 (fun _ => false) dbEmpty reqX = .ok (db5x, 1) ∧
    db5x.messages[0]? = some m5x ∧
    m5x.session_id ≠ compute_session_id shaT
      (conversation_root_id shaT reqX.sender reqX.recipient)
      reqX.timestamp 3600 := by
  refine ⟨rfl, rfl, by decide⟩

/-! ## Claims C9 and C10 — ack and the one-way delivered flag -/

/-- A successful deliver leaves every pre-existing row where it was and at
most raises `delivered`; the messages table becomes a map over the old
rows plus one appended row. -/
theorem deliver_ok_messages (recover : String → String → Option String)
    (sha : String → String) (W : Int) (online : String → Bool) (db : DB)
    (req : DeliverReq) (db' : DB) (j : Nat)
    (h : deliver recover sha W online db req = .ok (db', j)) :
    ∃ mN f, db'.messages = (db.messages ++ [mN]).map f ∧
      (∀ x : Msg, (f x).id = x.id) ∧
      (∀ x : Msg, x.delivered = true → (f x).delivered = true) := by
  unfold deliver at h
  by_cases hf : deliverFieldsPresent req = true
  · rw [if_neg (by simp [hf])] at h
    by_cases hv : verify_signature recover req.sender (deliver_msg_text req)
        req.ethSignature = true
    · rw [if_neg (by simp [hv])] at h
      dsimp only at h
      by_cases hon : online (pyLower req.recipient) = true
      · rw [if_pos hon] at h
        simp only [Except.ok.injEq, Prod.mk.injEq] at h
        obtain ⟨hdb, -⟩ := h
        subst hdb
        refine ⟨deliverRow sha W db req, _, rfl, ?_, ?_⟩
        · intro x
          by_cases hx : x.id = (deliverRow sha W db req).id <;> simp [hx]
        · intro x hx
          by_cases hxx : x.id = (deliverRow sha W db req).id <;>
            simp [hxx, hx]
      · rw [if_neg hon] at h
        simp only [Except.ok.injEq, Prod.mk.injEq] at h
        obtain ⟨hdb, -⟩ := h
        subst hdb
        exact ⟨deliverRow sha W db req, fun x => x, by simp,
          fun x => rfl, fun x hx => hx⟩
    · rw [if_pos (by simp [hv])] at h
      cases h
  · rw [if_pos (by simp [hf])] at h
    cases h

/-- A successful ack maps the messages table, setting `delivered` on the
rows whose id is listed. -/
theorem ack_ok_messages (recover : String → String → Option String)
    (db : DB) (req : AckReq) (db' : DB)
    (h : acknowledge_messages recover db req = .ok db') :
    db'.messages = db.messages.map
      (fun m => if (m.id : Int) ∈ req.messageIds
                then { m with delivered := true } else m) := by
  unfold acknowledge_messages at h
  by_cases hf : (req.recipient = "" ∨ req.messageIds = [] ∨
      req.ethSignature = "")
  · rw [if_pos hf] at h
    cases h
  · rw [if_neg hf] at h
    by_cases hv : verify_signature recover req.recipient
        (ack_message_text req.recipient req.messageIds)
        req.ethSignature = true
    · rw [if_neg (by simp [hv])] at h
      simp only [Except.ok.injEq] at h
      subst h
      exact markLoop_eq_map (fun m => (m.id : Int))
        (fun m => { m with delivered := true }) (fun m => rfl)
        (fun m => rfl) db.messages req.messageIds
    · rw [if_pos (by simp [hv])] at h
      cases h

/-- A successful commit maps the messages table, setting `committed` on
the rows whose cid is in the batch; `delivered` is untouched. -/
theorem commit_ok_messages (sha : String → String) (db : DB) (p : Proposal)
    (ts : Int) (db' : DB) (h : commit_block sha db p ts = .ok db') :
    db'.messages = db.messages.map
      (fun m => if m.cid ∈ p.cids then { m with committed := true } else m) := by
  unfold commit_block at h
  by_cases hh : p.previous_hash ≠ last_block_hash sha db
  · rw [if_pos hh] at h
    cases h
  · rw [if_neg hh] at h
    dsimp only [append_block] at h
    simp only [Except.ok.injEq] at h
    subst h
    exact markLoop_eq_map (fun m => m.cid)
      (fun m => { m with committed := true }) (fun m => rfl)
      (fun m => rfl) db.messages p.cids

/-- Claim C9: every node operation — deliver (with its optimistic push
marking), ack, block commit, and the read-only queries — keeps a
`delivered = 1` row delivered: the row stays at its position with its id,
and its flag never returns to 0. -/
theorem C9_delivered_oneway (recover : String → String → Option String)
    (sha : String → String) (W : Int) (db : DB) (op : NodeOp) (i : Nat)
    (m : Msg) (hm : db.messages[i]? = some m) (hdel : m.delivered = true) :
    ∃ m', (applyOp recover sha W db op).messages[i]? = some m' ∧
      m'.id = m.id ∧ m'.delivered = true := by
  have hlt : i < db.messages.length := (List.getElem?_eq_some.mp hm).1
  cases op with
  | opQuery => exact ⟨m, hm, rfl, hdel⟩
  | opDeliver online req =>
      simp only [applyOp]
      cases hd : deliver recover sha W online db req with
      | error e => exact ⟨m, hm, rfl, hdel⟩
      | ok pr =>
          obtain ⟨db', j⟩ := pr
          obtain ⟨mN, f, hmsg, hid, hmono⟩ :=
            deliver_ok_messages recover sha W online db req db' j hd
          refine ⟨f m, ?_, hid m, hmono m hdel⟩
          show db'.messages[i]? = some (f m)
          rw [hmsg, List.getElem?_map, List.getElem?_append_left hlt, hm]
          rfl
  | opAck req =>
      simp only [applyOp]
      cases ha : acknowledge_messages recover db req with
      | error e => exact ⟨m, hm, rfl, hdel⟩
      | ok db' =>
          have hmsg := ack_ok_messages recover db req db' ha
          refine ⟨if (m.id : Int) ∈ req.messageIds
              then { m with delivered := true } else m, ?_, ?_, ?_⟩
          · show db'.messages[i]? = _
            rw [hmsg, List.getElem?_map, hm]
            rfl
          · by_cases h : (m.id : Int) ∈ req.messageIds <;> simp [h]
          · by_cases h : (m.id : Int) ∈ req.messageIds <;> simp [h, hdel]
  | opCommit p ts =>
      simp only [applyOp]
      cases hc : commit_block sha db p ts with
      | error e => exact ⟨m, hm, rfl, hdel⟩
      | ok db' =>
          have hmsg := commit_ok_messages sha db p ts db' hc
          refine ⟨if m.cid ∈ p.cids
              then { m with committed := true } else m, ?_, ?_, ?_⟩
          · show db'.messages[i]? = _
            rw [hmsg, List.getElem?_map, hm]
            rfl
          · by_cases h : m.cid ∈ p.cids <;> simp [h]
          · by_cases h : m.cid ∈ p.cids <;> simp [h, hdel]

/-- A delivered row in a one-row database. -/
def m9 : Msg :=
  { id := 1, cid := "c9", sender := "0xAA", recipient := "0xBB",
    timestamp := 5, delivered := true, root_id := "r", session_id := "s",
    committed := false }

/-- The one-row database holding `m9`. -/
def db9 : DB :=
  { messages := [m9], nextId := 2, blocks := [], nextIdx := 1, peers := [] }

/-- An ack listing `m9`'s id. -/
def ack9 : AckReq :=
  { recipient := "0xAA", messageIds := [1], ethSignature := "sig" }

/-- A delivered row stays delivered across a concrete ack (instance of
`C9_delivered_oneway`). -/
theorem C9_delivered_oneway_witness :
    ∃ m', (applyOp recT shaT 3600 db9 (.opAck ack9)).messages[0]? = some m' ∧
      m'.id = m9.id ∧ m'.delivered = true :=
  C9_delivered_oneway recT shaT 3600 db9 (.opAck ack9) 0 m9 rfl rfl

/-- Claim C10: an ack whose signature verifies against the claimed
recipient sets `delivered = 1` for every listed id unconditionally — each
row keeps its id and recipient, and ends delivered exactly when it was
delivered before or its id is listed — with no check that the signer owns
the row. -/
theorem C10_ack_ignores_ownership (recover : String → String → Option String)
    (db : DB) (req : AckReq) (hr : req.recipient ≠ "")
    (hi : req.messageIds ≠ []) (hs : req.ethSignature ≠ "")
    (hv : verify_signature recover req.recipient
      (ack_message_text req.recipient req.messageIds)
      req.ethSignature = true) :
    ∃ db', acknowledge_messages recover db req = .ok db' ∧
      ∀ (i : Nat) (m : Msg), db.messages[i]? = some m →
        ∃ m', db'.messages[i]? = some m' ∧ m'.id = m.id ∧
          m'.recipient = m.recipient ∧
          (m'.delivered = true ↔
            (m.delivered = true ∨ (m.id : Int) ∈ req.messageIds)) := by
  have hok : acknowledge_messages recover db req =
      .ok { db with messages := (markLoop (fun m => (m.id : Int))
        (fun m => { m with delivered := true }) db.messages
        req.messageIds) } := by
    unfold acknowledge_messages
    rw [if_neg (by push_neg; exact ⟨hr, hi, hs⟩), if_neg (by simp [hv])]
  refine ⟨_, hok, ?_⟩
  intro i m hm
  have hmap := markLoop_eq_map (fun m => (m.id : Int))
    (fun m => { m with delivered := true })
    (fun m => rfl) (fun m => rfl) db.messages req.messageIds
  refine ⟨if (m.id : Int) ∈ req.messageIds
      then { m with delivered := true } else m, ?_, ?_, ?_, ?_⟩
  · show (markLoop _ _ db.messages req.messageIds)[i]? = _
    rw [hmap, List.getElem?_map, hm]
    rfl
  · by_cases h : (m.id : Int) ∈ req.messageIds <;> simp [h]
  · by_cases h : (m.id : Int) ∈ req.messageIds <;> simp [h]
  · by_cases h : (m.id : Int) ∈ req.messageIds <;> simp [h]

/-- An undelivered row owned by `0xBB` in a one-row database. -/
def m10 : Msg :=
  { id := 1, cid := "c10", sender := "0xDD", recipient := "0xBB",
    timestamp := 7, delivered := false, root_id := "r", session_id := "s",
    committed := false }

/-- The one-row database holding `m10`. -/
def db10 : DB :=
  { messages := [m10], nextId := 2, blocks := [], nextIdx := 1, peers := [] }

/-- An ack signed by `0xAA` — not the row's recipient — listing `m10`. -/
def ack10 : AckReq :=
  { recipient := "0xAA", messageIds := [1], ethSignature := "sig" }

/-- A concrete ack by a non-owner still sets the row delivered (instance
of `C10_ack_ignores_ownership`: the stored recipient is `0xBB`, the signer
`0xAA`). -/
theorem C10_ack_ignores_ownership_witness :
    ∃ db', acknowledge_messages recT db10 ack10 = .ok db' ∧
      ∀ (i : Nat) (m : Msg), db10.messages[i]? = some m →
        ∃ m', db'.messages[i]? = some m' ∧ m'.id = m.id ∧
          m'.recipient = m.recipient ∧
          (m'.delivered = true ↔
            (m.delivered = true ∨ (m.id : Int) ∈ ack10.messageIds)) :=
  C10_ack_ignores_ownership recT db10 ack10 (by decide) (by decide)
    (by decide) (by decide)
